import Mathlib

/-!
Shallow embedding of the core subsystems of the gravity-analyst-suite
repository, together with theorems settling the frozen claims about it.

Conventions used throughout the embedding:
* SQLite / SQLAlchemy tables are lists of row structures kept in rowid
  (insertion) order; an SQL query is a Lean function over such lists.
* Python floats are modelled as rationals; datetimes as integer seconds.
* Python dict field access via `.get` is an `Option`; a raised exception is
  an `Except.error`; an exception swallowed by `try/except` is handled at
  the corresponding point of the translation.
* `ORDER BY` with ties is determinised to table (rowid) order, matching a
  stable sort on the listed keys; SQLite leaves the tie order unspecified.
-/

/-- A raised Python exception (only its message is tracked). -/
inductive PyErr where
  | exc : String → PyErr
deriving DecidableEq

instance instDecEqExcept {e a : Type} [DecidableEq e] [DecidableEq a] :
    DecidableEq (Except e a) := fun x y =>
  match x, y with
  | .ok u, .ok v =>
    if h : u = v then isTrue (by rw [h]) else isFalse (by simp [h])
  | .error u, .error v =>
    if h : u = v then isTrue (by rw [h]) else isFalse (by simp [h])
  | .ok _, .error _ => isFalse (by simp)
  | .error _, .ok _ => isFalse (by simp)

/- ===================================================================
   C1 state store: gravitic-celestial/core/ingestion/state_manager.py
   =================================================================== -/

/-- A row of the `processed_filings` table (`accession_number` is the
primary key; `processed_at` is not tracked since no claim reads it). -/
structure ProcessedFiling where
  accession_number : String
  ticker : String
  filing_date : String
deriving DecidableEq

/-- A row of the `scheduler_events` table (the autoincrement id and
`created_at` are implicit in the list position). -/
structure SchedulerEventRow where
  event_type : String
  job_id : Option String
  scheduled_run_time : Option String
  exception : Option String
  traceback : Option String
deriving DecidableEq

/-- The SQLite database behind `StateManager`. -/
structure StateDB where
  processed_filings : List ProcessedFiling
  scheduler_events : List SchedulerEventRow
deriving DecidableEq

namespace StateManager

/-- `StateManager.is_processed`: `SELECT 1 FROM processed_filings WHERE
accession_number = ?` and test for a row. -/
def is_processed (db : StateDB) (accession_number : String) : Bool :=
  db.processed_filings.any (fun r => r.accession_number == accession_number)

/-- `StateManager.mark_processed`: `INSERT OR IGNORE INTO processed_filings`
keyed on the primary key `accession_number` — the insert is dropped when a
row with the same accession already exists. -/
def mark_processed (db : StateDB) (accession_number ticker filing_date : String) :
    StateDB :=
  if is_processed db accession_number then db
  else { db with
          processed_filings :=
            db.processed_filings ++ [⟨accession_number, ticker, filing_date⟩] }

/-- `StateManager.get_processed_count`: `SELECT COUNT(*) FROM processed_filings`. -/
def get_processed_count (db : StateDB) : Nat :=
  db.processed_filings.length

/-- `StateManager.record_scheduler_event`: appends one `scheduler_events` row. -/
def record_scheduler_event (db : StateDB) (event_type : String)
    (job_id scheduled_run_time exception traceback : Option String) : StateDB :=
  { db with
      scheduler_events :=
        db.scheduler_events ++
          [⟨event_type, job_id, scheduled_run_time, exception, traceback⟩] }

/-- The rows of `processed_filings` carrying a given accession number. -/
def rows_for (db : StateDB) (accession_number : String) : List ProcessedFiling :=
  db.processed_filings.filter (fun r => r.accession_number == accession_number)

/-- The `accession_number PRIMARY KEY` table invariant: accessions are
pairwise distinct across rows. -/
def pk_invariant (db : StateDB) : Prop :=
  (db.processed_filings.map ProcessedFiling.accession_number).Nodup

instance (db : StateDB) : Decidable (pk_invariant db) := by
  unfold pk_invariant; infer_instance

end StateManager

/- ===================================================================
   C2/C3 polling engine:
   gravitic-celestial/core/ingestion/polling_engine.py
   =================================================================== -/

/-- The structured report returned by the extractor (opaque collaborator). -/
structure Report where
  content : String
deriving DecidableEq

/-- A candidate filing as the dict handed to `_process_filing`; keys read
with `dict.get` are Options. The adapter-specific `filing_obj` payload is
opaque to the engine and modelled as `Unit`. -/
structure Filing where
  accession_number : Option String
  ticker : Option String
  filing_date : Option String
  filing_obj : Option Unit
deriving DecidableEq

/-- Python truthiness of a nullable string: `None` and `""` are falsy. -/
def truthyStr : Option String → Bool
  | none => false
  | some s => !(s == "")

namespace PollingEngine

/-- The per-filing collaborators called by `_process_filing`: the adapter's
`get_filing_text`, the extractor's `extract_from_text`, and `_save_report`
(report file write plus the notifier callout it performs). Each may raise. -/
structure ProcessDeps where
  get_filing_text : Unit → Except PyErr (Option String)
  extract_from_text : String → String → Except PyErr Report
  save_report : Report → String → String → Except PyErr Unit

/-- The body of the `try:` block of `_process_filing` (after the malformed
check): short-circuit on `is_processed`; fetch text with its own
`try/except` that turns an exception into `None`; when the text is truthy,
run the extractor and `_save_report` (either may raise, which aborts the
body before marking); finally default the filing date and `mark_processed`. -/
def _process_filing_body (deps : ProcessDeps) (filing : Filing)
    (db : StateDB) (accession ticker : String) : Except PyErr StateDB :=
  if StateManager.is_processed db accession then .ok db
  else
    let fetch_and_report : Except PyErr Unit :=
      match filing.filing_obj with
      | some payload =>
        match (match deps.get_filing_text payload with
               | .ok t => t
               | .error _ => none) with
        | some text =>
          if text == "" then .ok ()
          else do
            let report ← deps.extract_from_text text ticker
            deps.save_report report ticker accession
        | none => .ok ()
      | none => .ok ()
    match fetch_and_report with
    | .error e => .error e
    | .ok _ =>
      .ok (StateManager.mark_processed db accession ticker
            (filing.filing_date.getD ""))

/-- `PollingEngine._process_filing`: skip filings whose accession or ticker
is missing or empty; run the body; the outer `except Exception` swallows
any escaping exception, leaving the store untouched. -/
def _process_filing (deps : ProcessDeps) (filing : Filing) (db : StateDB) :
    StateDB :=
  if !(truthyStr filing.accession_number) || !(truthyStr filing.ticker) then db
  else
    match _process_filing_body deps filing db
        (filing.accession_number.getD "") (filing.ticker.getD "") with
    | .ok db2 => db2
    | .error _ => db

/-- The attribute names a `PollingEngine` instance owns (assigned in
`__init__`). `state` is not among them: the engine keeps its store handles
in `_state_local`, so a `self.state` lookup raises `AttributeError`. -/
def instance_attributes : List String :=
  ["tickers", "registry", "extractor", "rag", "notifier", "logger",
   "_state_local", "max_workers"]

/-- Python attribute lookup `self.<name>` on a `PollingEngine` instance. -/
def engine_getattr (name : String) : Except PyErr Unit :=
  if instance_attributes.contains name then .ok ()
  else .error (.exc ("AttributeError: no attribute " ++ name))

/-- An APScheduler job event delivered to the listener registered for
`EVENT_JOB_ERROR | EVENT_JOB_MISSED`; `exception` is set exactly for job
errors, and `scheduled_run_time` is already rendered to ISO text. -/
structure JobEvent where
  job_id : Option String
  scheduled_run_time : Option String
  exception : Option String
  traceback : Option String
deriving DecidableEq

/-- The `_log_scheduler_event` listener closure from `start_scheduled`:
on a job error it only logs; on a missed run it logs and then calls
`self.state.record_scheduler_event(...)`, an attribute lookup that fails. -/
def _log_scheduler_event (ev : JobEvent) (db : StateDB) :
    Except PyErr StateDB :=
  let scheduled_run_time_str := ev.scheduled_run_time.getD "unknown"
  let job_id := ev.job_id.getD "unknown"
  if ev.exception.isSome then
    .ok db
  else
    match engine_getattr "state" with
    | .error e => .error e
    | .ok _ =>
      .ok (StateManager.record_scheduler_event db "misfire" (some job_id)
            (some scheduled_run_time_str) none none)

/-- Collaborators for which the adapter text fetch raises. -/
def fetch_raises_deps : ProcessDeps where
  get_filing_text := fun _ => .error (.exc "ConnectionError")
  extract_from_text := fun _ _ => .ok ⟨"note"⟩
  save_report := fun _ _ _ => .ok ()

/-- Collaborators for which the extractor raises. -/
def extractor_raises_deps : ProcessDeps where
  get_filing_text := fun _ => .ok (some "8-K text")
  extract_from_text := fun _ _ => .error (.exc "LLMError")
  save_report := fun _ _ _ => .ok ()

/-- Collaborators for which the notifier (inside `_save_report`) raises. -/
def notifier_raises_deps : ProcessDeps where
  get_filing_text := fun _ => .ok (some "8-K text")
  extract_from_text := fun _ _ => .ok ⟨"note"⟩
  save_report := fun _ _ _ => .error (.exc "NotifyError")

/-- A well-formed candidate filing with an adapter payload attached. -/
def sample_filing : Filing :=
  ⟨some "0001045810-24-001", some "NVDA", some "2024-11-20", some ()⟩

end PollingEngine

/- ===================================================================
   C4 signal cache: gravitic-nebula/core/persistence/engine.py
   (row shapes from gravitic-nebula/core/persistence/models.py)
   =================================================================== -/

/-- A row of the `entities` table. -/
structure Entity where
  id : Nat
  ticker : String
  canonical_name : String
  last_scraped_at : Option Int
deriving DecidableEq

/-- A row of the `signals` table (`raw_payload` kept as an opaque blob). -/
structure ScrapedSignal where
  id : Nat
  entity_id : Nat
  provider : String
  signal_value : Rat
  raw_payload : String
  timestamp : Int
deriving DecidableEq

/-- The relational store behind `SignalStore`; both tables in rowid order. -/
structure SignalDB where
  entities : List Entity
  signals : List ScrapedSignal
deriving DecidableEq

namespace SignalStore

/-- `query(...).order_by(timestamp.desc()).first()`: an element of maximal
timestamp, the earliest row among equal timestamps (the tie order SQL
leaves unspecified, determinised to table order). -/
def latest_by_timestamp : List ScrapedSignal → Option ScrapedSignal
  | [] => none
  | s :: rest =>
    match latest_by_timestamp rest with
    | none => some s
    | some m => if s.timestamp < m.timestamp then some m else some s

/-- `query(Entity).filter(Entity.ticker == ticker).first()`. -/
def find_entity (db : SignalDB) (ticker : String) : Option Entity :=
  db.entities.find? (fun e => e.ticker == ticker)

/-- The signal rows belonging to `(ticker, provider)` through the entity
chain, in rowid (save) order. -/
def matching_signals (db : SignalDB) (ticker provider : String) :
    List ScrapedSignal :=
  match find_entity db ticker with
  | none => []
  | some entity =>
    db.signals.filter
      (fun s => s.entity_id == entity.id && s.provider == provider)

/-- `SignalStore.get_latest_signal`: entity lookup, newest signal for the
provider, then the TTL gate `utcnow() - timestamp < timedelta(hours=ttl)`.
Times are integer seconds, so the TTL bound is `ttl_hours * 3600`. -/
def get_latest_signal (ttl_hours : Int) (db : SignalDB)
    (ticker provider : String) (now : Int) : Option String :=
  match find_entity db ticker with
  | none => none
  | some entity =>
    match latest_by_timestamp
        (db.signals.filter
          (fun s => s.entity_id == entity.id && s.provider == provider)) with
    | none => none
    | some latest =>
      if now - latest.timestamp < ttl_hours * 3600 then
        some latest.raw_payload
      else none

/-- `SignalStore.save_signal`: create the entity if absent (canonical name
`canonical_name or ticker`, Python truthiness), append a signal row stamped
`utcnow()`, and update the entity's `last_scraped_at` (and, when a truthy
canonical name is given, its `canonical_name`). -/
def save_signal (db : SignalDB) (ticker provider payload : String)
    (signal_value : Rat) (canonical_name : Option String) (now : Int) :
    SignalDB :=
  let found := find_entity db ticker
  let entity : Entity :=
    match found with
    | some e => e
    | none =>
      ⟨db.entities.length + 1, ticker,
        (if truthyStr canonical_name then canonical_name.getD "" else ticker),
        none⟩
  let entities1 :=
    match found with
    | some _ => db.entities
    | none => db.entities ++ [entity]
  let new_signal : ScrapedSignal :=
    ⟨db.signals.length + 1, entity.id, provider, signal_value, payload, now⟩
  let entities2 := entities1.map (fun e =>
    if e.id == entity.id then
      { e with
          last_scraped_at := some now,
          canonical_name :=
            if truthyStr canonical_name then canonical_name.getD ""
            else e.canonical_name }
    else e)
  ⟨entities2, db.signals ++ [new_signal]⟩

end SignalStore

/- ===================================================================
   C5/C8 macro data model: gravitic-macro/macro_core/models.py
   =================================================================== -/

/-- One entry of the parsed `outcomes` list: a (label, probability) dict. -/
structure OutcomeEntry where
  label : String
  probability : Rat
deriving DecidableEq

/-- The pydantic `MacroEvent` model. `timestamp` defaults to `utcnow()`;
`end_date` is omitted (no claim reads it). -/
structure MacroEvent where
  event_id : String
  title : String
  category : Option String
  sector : Option String
  related_ticker : Option String
  probability_yes : Rat
  outcomes : Option (List OutcomeEntry)
  volume_usd : Option Rat
  source : String
  timestamp : Int
deriving DecidableEq

/-- Constructing a `MacroEvent` runs pydantic validation: the model
declares `probability_yes: float = Field(..., ge=0.0, le=1.0)`, so an
out-of-range probability raises a `ValidationError`. -/
def macro_event_validate (event_id title : String) (probability_yes : Rat)
    (outcomes : Option (List OutcomeEntry)) (volume_usd : Option Rat)
    (source : String) (now : Int) : Except PyErr MacroEvent :=
  if 0 ≤ probability_yes ∧ probability_yes ≤ 1 then
    .ok ⟨event_id, title, none, none, none, probability_yes, outcomes,
          volume_usd, source, now⟩
  else .error (.exc "ValidationError: probability_yes out of range")

/- ===================================================================
   C5 snapshot store: gravitic-macro/macro_core/persistence/timeseries.py
   =================================================================== -/

/-- A row of `macro_probabilities` (autoincrement id implicit in the list
position); the table declares `UNIQUE(event_id, timestamp)`. -/
structure SnapshotRow where
  event_id : String
  event_title : String
  category : Option String
  sector : Option String
  related_ticker : Option String
  probability_yes : Rat
  volume_usd : Option Rat
  source : String
  timestamp : Int
deriving DecidableEq

namespace TimeSeriesPersistence

/-- The `macro_probabilities` row written for an event. -/
def row_of (e : MacroEvent) : SnapshotRow :=
  ⟨e.event_id, e.title, e.category, e.sector, e.related_ticker,
    e.probability_yes, e.volume_usd, e.source, e.timestamp⟩

/-- `TimeSeriesPersistence.save_snapshot`: plain INSERT; the
`UNIQUE(event_id, timestamp)` constraint turns a colliding insert into an
`sqlite3.IntegrityError`, which is caught and reported as `False`. -/
def save_snapshot (table : List SnapshotRow) (e : MacroEvent) :
    Bool × List SnapshotRow :=
  if table.any (fun r =>
      r.event_id == e.event_id && r.timestamp == e.timestamp) then
    (false, table)
  else
    (true, table ++ [row_of e])

/-- `TimeSeriesPersistence.save_batch`: save each event in order, counting
the saves that returned `True`. -/
def save_batch (table : List SnapshotRow) (events : List MacroEvent) :
    Nat × List SnapshotRow :=
  events.foldl (fun acc e =>
    let r := save_snapshot acc.2 e
    (if r.1 then acc.1 + 1 else acc.1, r.2)) (0, table)

/-- The boolean results and final table of a sequence of
`save_snapshot` calls. -/
def save_sequence : List MacroEvent → List SnapshotRow →
    List Bool × List SnapshotRow
  | [], table => ([], table)
  | e :: es, table =>
    let r := save_snapshot table e
    let rest := save_sequence es r.2
    (r.1 :: rest.1, rest.2)

/-- The rows of the table carrying a given `(event_id, timestamp)` key. -/
def key_rows (table : List SnapshotRow) (event_id : String) (ts : Int) :
    List SnapshotRow :=
  table.filter (fun r => r.event_id == event_id && r.timestamp == ts)

end TimeSeriesPersistence

/- ===================================================================
   C8 hydration parsing: gravitic-macro/macro_core/scrapers/polymarket.py
   =================================================================== -/

/-- Drop leading ASCII whitespace. -/
def skipSpaces (cs : List Char) : List Char :=
  cs.dropWhile (fun c => c == ' ' || c == '\t' || c == '\n' || c == '\r')

/-- Digit string to number, most significant first. -/
def natOfDigits (cs : List Char) : Nat :=
  cs.foldl (fun a c => a * 10 + (c.toNat - 48)) 0

/-- Strip leading and trailing whitespace (Python `str.strip()`). -/
def stripChars (cs : List Char) : List Char :=
  ((cs.dropWhile Char.isWhitespace).reverse.dropWhile Char.isWhitespace).reverse

/-- The scaled-integer reading of a decimal string: optional sign, integer
digits, optional fractional digits; result `(mantissa, fraction length)`.
Exponent and special float forms are out of scope of the claims. -/
def parseDecimal (s : String) : Option (Int × Nat) :=
  let cs := stripChars s.toList
  let signed : Int × List Char :=
    match cs with
    | '-' :: rest => (-1, rest)
    | '+' :: rest => (1, rest)
    | _ => (1, cs)
  let ip := signed.2.takeWhile Char.isDigit
  let rest := signed.2.dropWhile Char.isDigit
  match rest with
  | [] =>
    if ip.isEmpty then none
    else some (signed.1 * (natOfDigits ip : Int), 0)
  | '.' :: fp =>
    if fp.all Char.isDigit && !(ip.isEmpty && fp.isEmpty) then
      some (signed.1 *
        ((natOfDigits ip * 10 ^ fp.length + natOfDigits fp : Nat) : Int),
        fp.length)
    else none
  | _ => none

/-- Python `float(s)` on the decimal strings the pricing API serves;
`None` models the raised `ValueError`. -/
def parseFloat (s : String) : Option Rat :=
  (parseDecimal s).map (fun p => (p.1 : Rat) / (10 : Rat) ^ p.2)

/-- Parse one double-quoted string (no escape sequences), returning it and
the unconsumed input. -/
def parseQuoted : List Char → Option (String × List Char)
  | '"' :: rest => parseQuotedTail rest []
  | _ => none
where parseQuotedTail : List Char → List Char → Option (String × List Char)
  | [], _ => none
  | '"' :: rest, acc => some (String.mk acc.reverse, rest)
  | '\\' :: _, _ => none
  | c :: rest, acc => parseQuotedTail rest (c :: acc)

/-- Comma-separated quoted strings up to the closing bracket; `fuel`
bounds the recursion by the input length. -/
def parseItems (fuel : Nat) (cs : List Char) (acc : List String) :
    Option (List String × List Char) :=
  match fuel with
  | 0 => none
  | f + 1 =>
    match parseQuoted (skipSpaces cs) with
    | none => none
    | some (s, rest) =>
      match skipSpaces rest with
      | ']' :: tail => some (acc ++ [s], tail)
      | ',' :: tail => parseItems f tail (acc ++ [s])
      | _ => none

/-- `ast.literal_eval` restricted to the JSON-style lists of strings the
Gamma API serializes (`["Yes", "No"]`); `None` models the raised
`ValueError`/`SyntaxError` on anything else. -/
def parseStrList (s : String) : Option (List String) :=
  match skipSpaces s.toList with
  | '[' :: rest =>
    match skipSpaces rest with
    | ']' :: tail => if (skipSpaces tail).isEmpty then some [] else none
    | rest2 =>
      match parseItems (s.length + 1) rest2 [] with
      | some (items, tail) =>
        if (skipSpaces tail).isEmpty then some items else none
      | none => none
  | _ => none

/-- All-or-nothing float parse of a price list (hypothesis-side helper). -/
def parse_all_prices : List String → Option (List Rat)
  | [] => some []
  | p :: ps =>
    match parseFloat p, parse_all_prices ps with
    | some v, some vs => some (v :: vs)
    | _, _ => none

/-- A market dict from the Gamma API as `_parse_single_market` reads it;
`outcomes` and `outcomePrices` hold the serialized lists handed to
`ast.literal_eval`; `volume` is taken pre-parsed (its failure path is not
claimed). -/
structure RawMarket where
  id : Option String
  question : Option String
  outcomes : Option String
  outcomePrices : Option String
  volume : Rat
deriving DecidableEq

/-- The spec's concrete multi-outcome market: outcomes Yes/No priced
0.42 / 0.58. -/
def yes_no_market : RawMarket :=
  ⟨some "evt1", some "Will NVDA hit 100?", some "[\"Yes\", \"No\"]",
    some "[\"0.42\", \"0.58\"]", 1500000⟩

/-- A market whose first outcome price `1.5` falls outside the `[0,1]`
bound pydantic places on `probability_yes`. -/
def out_of_range_market : RawMarket :=
  ⟨some "evtX", some "Q", some "[\"A\", \"B\"]", some "[\"1.5\", \"0.2\"]", 0⟩

namespace PolymarketScraper

/-- The `for label, price in zip(...)` loop: appends one
`{label, probability}` dict per pair; `float(price)` raising aborts the
loop, keeping the entries appended so far (second component `false`). -/
def outcomes_loop : List (String × String) → List OutcomeEntry →
    List OutcomeEntry × Bool
  | [], acc => (acc, true)
  | (label, price) :: rest, acc =>
    match parseFloat price with
    | some p => outcomes_loop rest (acc ++ [⟨label, p⟩])
    | none => (acc, false)

/-- The inner `try:` of `_parse_single_market`: parse both list fields
(default `"[]"`), zip and convert when both are non-empty, then
`prob_yes = float(prices[0]) if prices else 0.5`; any exception inside the
block falls to `except: prob_yes = 0.5` with the partial `outcomes_data`. -/
def parse_outcomes_prob (outcomesField outcomePricesField : Option String) :
    List OutcomeEntry × Rat :=
  match parseStrList (outcomesField.getD "[]"),
      parseStrList (outcomePricesField.getD "[]") with
  | some labels, some prices =>
    let looped : List OutcomeEntry × Bool :=
      if labels.isEmpty || prices.isEmpty then ([], true)
      else outcomes_loop (labels.zip prices) []
    if looped.2 then
      match prices with
      | [] => (looped.1, 1/2)
      | p0 :: _ =>
        match parseFloat p0 with
        | some v => (looped.1, v)
        | none => (looped.1, 1/2)
    else (looped.1, 1/2)
  | _, _ => ([], 1/2)

/-- `PolymarketScraper._parse_single_market`: build the `MacroEvent`; if
model construction raises (pydantic validation), the outer handler returns
the shell event. -/
def _parse_single_market (m : RawMarket) (now : Int) : MacroEvent :=
  let parsed := parse_outcomes_prob m.outcomes m.outcomePrices
  match macro_event_validate (m.id.getD "") (m.question.getD "Unknown")
      parsed.2 (some parsed.1) (some m.volume) "polymarket" now with
  | .ok e => e
  | .error _ =>
    ⟨"", "Error Parsing", none, none, none, 0, none, some 0, "error", now⟩

end PolymarketScraper

/- ===================================================================
   C6 entity resolver: gravitic-nebula/core/entity_resolver/engine.py
   =================================================================== -/

/-- Python `str.lower()` (list-based so proofs can evaluate it). -/
def pyLower (s : String) : String := String.mk (s.toList.map Char.toLower)

/-- Python `str.upper()`. -/
def pyUpper (s : String) : String := String.mk (s.toList.map Char.toUpper)

/-- Python `str.strip()`. -/
def pyStrip (s : String) : String := String.mk (stripChars s.toList)

/-- An entry of the `load_entities` input:
`{name, ticker, aliases}`. -/
structure ResolverEntity where
  name : String
  ticker : String
  aliases : List String
deriving DecidableEq

/-- The resolver's in-memory corpus. The two dicts are association lists
whose newest binding comes first (Python dict assignment shadows). -/
structure ResolverCorpus where
  known_entities : List String
  entity_map : List (String × String)
  alias_map : List (String × String)
  entity_vectors : List (List Rat)
deriving DecidableEq

/-- Every alias value resolves to an `entity_map` key (so the
`self.entity_map[canonical]` subscript in `resolve` cannot raise). -/
def alias_sound (c : ResolverCorpus) : Prop :=
  ∀ k v, c.alias_map.lookup k = some v →
    ∃ tk, c.entity_map.lookup v = some tk

namespace HybridResolver

/-- The vector backend interface (`encode` of a batch of texts, pairwise
`similarity` of a query matrix against the entity matrix). -/
structure VectorBackend where
  encode : List String → List (List Rat)
  similarity : List (List Rat) → List (List Rat) → List Rat

/-- The dict returned by a successful `resolve`. -/
structure ResolveResult where
  ticker : String
  canonical_name : String
  confidence : Rat
  method : String
deriving DecidableEq

/-- Python dict assignment `d[k] = v`: the new binding shadows earlier
ones (lookup finds the first match). -/
def dict_insert (m : List (String × String)) (k v : String) :
    List (String × String) :=
  (k, v) :: m

/-- One iteration of the `for e in entities` loop of `load_entities`. -/
def load_step (c : ResolverCorpus) (e : ResolverEntity) : ResolverCorpus :=
  let c1 : ResolverCorpus :=
    { c with
        known_entities := c.known_entities ++ [e.name],
        entity_map := dict_insert c.entity_map e.name e.ticker }
  e.aliases.foldl
    (fun c2 al =>
      { c2 with alias_map := dict_insert c2.alias_map (pyLower al) e.name })
    c1

/-- `HybridResolver.load_entities`: reset the corpus, accumulate names,
tickers and lowercased aliases, then fit/encode the canonical names into
`entity_vectors`. -/
def load_entities (backend : VectorBackend)
    (entities : List ResolverEntity) : ResolverCorpus :=
  let c := entities.foldl load_step ⟨[], [], [], []⟩
  { c with entity_vectors := backend.encode c.known_entities }

/-- The fixed `0.35` MiniLM score threshold (7/20 in lowest terms). -/
def vector_threshold : Rat := Rat.mk' 7 20 (by norm_num) (by norm_num)

/-- `np.argmax`: index of the first maximal entry. -/
def argmax_from (best : Rat) (best_idx i : Nat) : List Rat → Nat
  | [] => best_idx
  | s :: rest =>
    if best < s then argmax_from s i (i + 1) rest
    else argmax_from best best_idx (i + 1) rest

/-- `np.argmax` raises `ValueError` on an empty array. -/
def argmax : List Rat → Option Nat
  | [] => none
  | s :: rest => some (argmax_from s 0 1 rest)

/-- `HybridResolver.resolve`: normalize the query with
`query.lower().strip()`; on an alias hit return the canonical with
confidence 1.0 and method `alias_lookup`; otherwise embed the query, score
it against all entity vectors, and return the argmax as `pure_vector` when
its score beats the threshold, else `None`. The rapidfuzz blocking call
computes `candidates` that the rest of the function never reads, so it is
omitted (`fuzzy_threshold` feeds only that dead call); dict subscripts and
`np.argmax` on an empty corpus raise. -/
def resolve (backend : VectorBackend) (c : ResolverCorpus)
    (query : String) : Except PyErr (Option ResolveResult) :=
  let query_norm := pyStrip (pyLower query)
  match c.alias_map.lookup query_norm with
  | some canonical =>
    match c.entity_map.lookup canonical with
    | some tk => .ok (some ⟨tk, canonical, 1, "alias_lookup"⟩)
    | none => .error (.exc "KeyError")
  | none =>
    let query_vec := backend.encode [query]
    let all_cosine_scores := backend.similarity query_vec c.entity_vectors
    match argmax all_cosine_scores with
    | none => .error (.exc "ValueError: argmax of an empty sequence")
    | some best_idx_vec =>
      match all_cosine_scores.get? best_idx_vec,
          c.known_entities.get? best_idx_vec with
      | some best_score_vec, some best_name_vec =>
        if vector_threshold < best_score_vec then
          match c.entity_map.lookup best_name_vec with
          | some tk => .ok (some ⟨tk, best_name_vec, best_score_vec,
              "pure_vector"⟩)
          | none => .error (.exc "KeyError")
        else .ok none
      | _, _ => .error (.exc "IndexError")

/-- A degenerate concrete backend: every text embeds to the zero vector
and every similarity score is 0. -/
def const_backend : VectorBackend where
  encode := fun ss => ss.map (fun _ => [0])
  similarity := fun _ m => m.map (fun _ => 0)

/-- A corpus entry whose alias keeps its leading whitespace. -/
def apple_entities : List ResolverEntity :=
  [⟨"Apple Inc.", "AAPL", [" Apple"]⟩]

/-- The spec's golden-set corpus entry for Foxconn. -/
def foxconn_entities : List ResolverEntity :=
  [⟨"Foxconn", "2317.TW", ["Hon Hai Precision Ind. Co."]⟩]

end HybridResolver

/- ===================================================================
   C7 market index: gravitic-macro/macro_core/persistence/index.py
   =================================================================== -/

/-- A row of `market_metadata`, in rowid (insertion) order within the
table list. `description`/`slug` nullability is immaterial to the claims. -/
structure MarketRow where
  event_id : String
  market_id : String
  title : String
  description : String
  slug : String
  tags : String
  volume_usd : Rat
  end_date : Option Int
deriving DecidableEq

namespace MarketIndex

/-- Insert into a volume-descending list, after every strictly larger
element and before equal ones (the stable determinisation of SQLite's
`ORDER BY volume_usd DESC`, whose tie order is unspecified). -/
def insertByVol (r : MarketRow) : List MarketRow → List MarketRow
  | [] => [r]
  | s :: rest =>
    if r.volume_usd < s.volume_usd then s :: insertByVol r rest
    else r :: s :: rest

/-- `ORDER BY volume_usd DESC` as a stable sort; note the source query
names no further sort key. -/
def order_by_volume_desc : List MarketRow → List MarketRow
  | [] => []
  | r :: rest => insertByVol r (order_by_volume_desc rest)

/-- `MarketIndex.search` (FTS path): the FTS5 `MATCH` predicate is
abstract (`matchq`); the join back to `market_metadata` is the identity
because `upsert_markets` keeps the two tables in lockstep per `event_id`.
`ORDER BY m.volume_usd DESC LIMIT ?`. -/
def search_fts (matchq : MarketRow → Bool) (table : List MarketRow)
    (limit : Nat) : List MarketRow :=
  (order_by_volume_desc (table.filter matchq)).take limit

/-- Starts-with test on character lists. -/
def starts_with_chars : List Char → List Char → Bool
  | [], _ => true
  | _ :: _, [] => false
  | c :: cs, h :: hs => c == h && starts_with_chars cs hs

/-- Containment of `needle` in `hay` at any position. -/
def contains_chars : List Char → List Char → Bool
  | [], needle => needle.isEmpty
  | h :: t, needle => starts_with_chars needle (h :: t) || contains_chars t needle

/-- SQL `LIKE wildcard-free-pattern` semantics: case-insensitive
substring containment. -/
def like_contains (hay needle : String) : Bool :=
  contains_chars (pyLower hay).toList (pyLower needle).toList

/-- `MarketIndex._search_fallback`: `title LIKE ? OR tags LIKE ?` with the
query wrapped in percent wildcards, `ORDER BY volume_usd DESC LIMIT ?`. -/
def _search_fallback (table : List MarketRow) (query : String)
    (limit : Nat) : List MarketRow :=
  (order_by_volume_desc (table.filter
    (fun r => like_contains r.title query || like_contains r.tags query))
    ).take limit

/-- Two rows with identical volume, inserted in descending `event_id`
order. -/
def row_b : MarketRow := ⟨"b", "", "tech conference", "", "", "tech", 100, none⟩

/-- See `row_b`: same volume, lexicographically smaller `event_id`,
inserted second. -/
def row_a : MarketRow := ⟨"a", "", "tech gala", "", "", "tech", 100, none⟩

end MarketIndex

/- ===================================================================
   C9 CLI entry point: gravitic-celestial/run_poller.py
   =================================================================== -/

namespace RunPoller

/-- The argparse namespace produced by run_poller's parser: exactly the
arguments `add_argument` declares (positional `tickers`; `--interval`
default 5; `--cron`; `--simple`; `--log-level` default `INFO` from env;
`--max-workers`). -/
structure ArgsNamespace where
  tickers : List String
  interval : Int
  cron : Option String
  simple : Bool
  log_level : String
  max_workers : Option Int
deriving DecidableEq

/-- The attribute names present on the parsed namespace. The parser never
declares `misfire_grace_seconds`, `log_format`, `log_file` or `console`,
although `main` reads all four. -/
def namespace_attributes : List String :=
  ["tickers", "interval", "cron", "simple", "log_level", "max_workers"]

/-- Python attribute access `args.<name>`. -/
def getattr_namespace (name : String) : Except PyErr Unit :=
  if namespace_attributes.contains name then .ok ()
  else .error (.exc ("AttributeError: " ++ name))

/-- `int(s)` as argparse `type=int` applies it: an optionally signed
integer literal. -/
def parseIntArg (s : String) : Option Int :=
  (parseDecimal s).bind (fun p => if p.2 == 0 then some p.1 else none)

/-- An argv token argparse classifies as an optional argument. -/
def is_option_token (tok : String) : Bool :=
  match tok.toList with
  | '-' :: _ => true
  | _ => false

/-- One pass of argparse over the remaining argv: recognized flags consume
their value; an unrecognized option aborts with the argparse usage error;
anything else is a positional ticker. -/
def parse_args_from (args : List String) (acc : ArgsNamespace) :
    Option ArgsNamespace :=
  match args with
  | [] => some acc
  | "--interval" :: v :: rest =>
    (parseIntArg v).bind
      (fun n => parse_args_from rest { acc with interval := n })
  | "--cron" :: v :: rest =>
    parse_args_from rest { acc with cron := some v }
  | "--simple" :: rest =>
    parse_args_from rest { acc with simple := true }
  | "--log-level" :: v :: rest =>
    parse_args_from rest { acc with log_level := v }
  | "--max-workers" :: v :: rest =>
    (parseIntArg v).bind
      (fun n => parse_args_from rest { acc with max_workers := some n })
  | tok :: rest =>
    if is_option_token tok then none
    else parse_args_from rest { acc with tickers := acc.tickers ++ [tok] }

/-- `parser.parse_args()`: `None` models `SystemExit(2)` (argparse prints
usage and exits 2 on an unrecognized option, a bad value, or missing
positionals). -/
def parse_args (argv : List String) : Option ArgsNamespace :=
  (parse_args_from argv ⟨[], 5, none, false, "INFO", none⟩).bind
    (fun ns => if ns.tickers.isEmpty then none else some ns)

/-- What a `run_poller.py` invocation does. -/
inductive CliOutcome where
  | usage_error
  | attribute_error (missing : String)
  | loop (ns : ArgsNamespace)
  | scheduled (ns : ArgsNamespace) (misfire_grace_seconds : Option Int)
deriving DecidableEq

/-- `run_poller.main`: parse argv, then call
`configure_logging(args.log_level, args.log_format, args.log_file,
args.console)` and finally dispatch to `start_loop` or
`start_scheduled(..., args.misfire_grace_seconds)`. Every attribute read
of an argument the parser never declared raises `AttributeError`, which
nothing catches (the process dies with exit code 1). -/
def main (argv : List String) : CliOutcome :=
  match parse_args argv with
  | none => .usage_error
  | some args =>
    match getattr_namespace "log_format" with
    | .error _ => .attribute_error "log_format"
    | .ok _ =>
      match getattr_namespace "log_file" with
      | .error _ => .attribute_error "log_file"
      | .ok _ =>
        match getattr_namespace "console" with
        | .error _ => .attribute_error "console"
        | .ok _ =>
          if args.simple then .loop args
          else
            match getattr_namespace "misfire_grace_seconds" with
            | .error _ => .attribute_error "misfire_grace_seconds"
            | .ok _ => .scheduled args none

end RunPoller

/- ===================================================================
   C10 discovery engine: gravitic-macro/macro_core/scrapers/discovery.py
   =================================================================== -/

/-- One value of `TICKER_THEME_MAP`: a sector label and keyword list. -/
structure ThemeInfo where
  sector : String
  keywords : List String
deriving DecidableEq

/-- The static ticker-theme table, transcribed from the source. -/
def TICKER_THEME_MAP : List (String × ThemeInfo) :=
  [("NVDA", ⟨"AI/Chips",
      ["NVDA", "Nvidia", "AI", "Chips", "Semiconductors", "TSMC",
        "Blackwell", "Jensen Huang"]⟩),
   ("MSFT", ⟨"Software/Cloud",
      ["MSFT", "Microsoft", "OpenAI", "Azure", "Cloud", "SaaS"]⟩),
   ("AAPL", ⟨"Consumer Tech",
      ["AAPL", "Apple", "iPhone", "China Sales", "App Store"]⟩),
   ("TSLA", ⟨"Auto/Energy",
      ["TSLA", "Tesla", "Musk", "EV", "Electric Vehicles", "Charging"]⟩),
   ("META", ⟨"Ad/Social",
      ["META", "Facebook", "Zuckerberg", "Ads", "Instagram", "Threads"]⟩),
   ("GOOGL", ⟨"Ad/Search",
      ["GOOGL", "Google", "Search", "Gemini", "YouTube", "Antitrust"]⟩),
   ("AMZN", ⟨"Retail/Cloud",
      ["AMZN", "Amazon", "AWS", "Retail", "Prime"]⟩)]

namespace DiscoveryEngine

/-- `DiscoveryEngine.get_keywords_for_ticker`:
`TICKER_THEME_MAP.get(ticker.upper(), {}).get("keywords",
[ticker.upper()])` — every table value carries a `keywords` key, so the
second default fires exactly when the uppercased ticker is unmapped. -/
def get_keywords_for_ticker (ticker : String) : List String :=
  match TICKER_THEME_MAP.lookup (pyUpper ticker) with
  | some info => info.keywords
  | none => [pyUpper ticker]

/-- `DiscoveryEngine.get_sector_for_ticker` (default `"Other"`). -/
def get_sector_for_ticker (ticker : String) : String :=
  match TICKER_THEME_MAP.lookup (pyUpper ticker) with
  | some info => info.sector
  | none => "Other"

/-- The order-preserving union in `search_ticker`: append each match whose
`event_id` has not been seen. -/
def dedup_append (acc : List MarketRow) (ms : List MarketRow) :
    List MarketRow :=
  ms.foldl (fun acc2 m =>
    if acc2.any (fun r => r.event_id == m.event_id) then acc2
    else acc2 ++ [m]) acc

/-- `DiscoveryEngine.search_ticker`: search the local index once per
keyword (passing the same limit), union with order-preserving dedup by
`event_id`, sort by volume descending (Python's stable `list.sort` with
`reverse=True`), cap at `limit`. The index is abstracted as the `search`
function. -/
def search_ticker (search : String → Nat → List MarketRow)
    (ticker : String) (limit : Nat) : List MarketRow :=
  let keywords := get_keywords_for_ticker ticker
  let results := keywords.foldl
    (fun acc kw => dedup_append acc (search kw limit)) []
  (MarketIndex.order_by_volume_desc results).take limit

end DiscoveryEngine

/- ===================================================================
   Lemmas and theorems
   =================================================================== -/

namespace StateManager

theorem is_processed_mark_self (db : StateDB) (a t d : String) :
    is_processed (mark_processed db a t d) a = true := by
  unfold mark_processed
  by_cases h : is_processed db a
  · simp [h]
  · simp only [h, if_false]
    unfold is_processed at *
    simp [List.any_append]

theorem mark_processed_noop (db : StateDB) (a t d : String)
    (h : is_processed db a = true) : mark_processed db a t d = db := by
  unfold mark_processed
  simp [h]

theorem mark_preserves_pk (db : StateDB) (a t d : String)
    (h : pk_invariant db) : pk_invariant (mark_processed db a t d) := by
  unfold mark_processed
  by_cases hp : is_processed db a
  · simpa [hp] using h
  · simp only [hp, if_false]
    unfold pk_invariant at *
    show ((db.processed_filings ++ [ProcessedFiling.mk a t d]).map
        ProcessedFiling.accession_number).Nodup
    simp only [List.map_append, List.map_cons, List.map_nil]
    rw [List.nodup_append]
    refine ⟨h, List.nodup_singleton _, ?_⟩
    intro x hx
    simp only [List.mem_singleton]
    intro hxa
    subst hxa
    unfold is_processed at hp
    simp only [List.any_eq_true, Bool.not_eq_true] at hp
    rcases List.mem_map.mp hx with ⟨r, hr, hra⟩
    exact hp ⟨r, hr, by simp [hra]⟩

theorem rows_for_unique (l : List ProcessedFiling) (a : String)
    (hk : (l.map ProcessedFiling.accession_number).Nodup)
    (h : l.any (fun r => r.accession_number == a) = true) :
    (l.filter (fun r => r.accession_number == a)).length = 1 := by
  induction l with
  | nil => simp at h
  | cons r rest ih =>
    simp only [List.map_cons, List.nodup_cons] at hk
    by_cases hr : r.accession_number = a
    · have hnone : rest.filter (fun x => x.accession_number == a) = [] := by
        rw [List.filter_eq_nil_iff]
        intro x hx hxa
        simp only [beq_iff_eq] at hxa
        exact hk.1 (List.mem_map.mpr ⟨x, hx, by rw [hxa, hr]⟩)
      simp [List.filter_cons, hr, hnone]
    · have h' : rest.any (fun x => x.accession_number == a) = true := by
        simp only [List.any_cons, Bool.or_eq_true] at h
        rcases h with h | h
        · exact absurd (by simpa using h) hr
        · exact h
      simpa [List.filter_cons, hr] using ih hk.2 h'

theorem foldl_mark_noop (rest : List (String × String)) (db : StateDB)
    (a : String) (h : is_processed db a = true) :
    rest.foldl (fun s td => mark_processed s a td.1 td.2) db = db := by
  induction rest with
  | nil => rfl
  | cons c cs ih =>
    simp only [List.foldl_cons, mark_processed_noop db a c.1 c.2 h]
    exact ih

/-- C1: calling `mark_processed` any number of times (≥ 1, with arbitrary
ticker / filing_date arguments) leaves exactly one `processed_filings` row
for that accession; after the first call `is_processed` is true and every
later call is a no-op on the database. -/
theorem mark_processed_idempotent
    (db : StateDB) (a : String) (calls : List (String × String))
    (hpk : pk_invariant db) (hne : calls ≠ []) :
    (rows_for (calls.foldl (fun s td => mark_processed s a td.1 td.2) db) a).length
        = 1 ∧
    is_processed (calls.foldl (fun s td => mark_processed s a td.1 td.2) db) a
        = true ∧
    ∀ t d, mark_processed
        (calls.foldl (fun s td => mark_processed s a td.1 td.2) db) a t d
      = calls.foldl (fun s td => mark_processed s a td.1 td.2) db := by
  rcases calls with _ | ⟨c, rest⟩
  · exact absurd rfl hne
  · have hstep : is_processed (mark_processed db a c.1 c.2) a = true :=
      is_processed_mark_self db a c.1 c.2
    have hfold :
        (c :: rest).foldl (fun s td => mark_processed s a td.1 td.2) db
          = mark_processed db a c.1 c.2 := by
      simp only [List.foldl_cons]
      exact foldl_mark_noop rest _ a hstep
    rw [hfold]
    refine ⟨?_, hstep, fun t d => mark_processed_noop _ a t d hstep⟩
    have hpk1 : pk_invariant (mark_processed db a c.1 c.2) :=
      mark_preserves_pk db a c.1 c.2 hpk
    exact rows_for_unique _ a hpk1 hstep

/-- C1 witness: two `mark_processed` calls for the same accession on an
empty store leave one row, report it processed, and the second call is a
no-op. -/
theorem mark_processed_idempotent_witness :
    pk_invariant ⟨[], []⟩ ∧
    ([("NVDA", "2024-11-20"), ("NVDA", "2024-11-20")] ≠
        ([] : List (String × String))) ∧
    (rows_for
        ([("NVDA", "2024-11-20"), ("NVDA", "2024-11-20")].foldl
          (fun s td => mark_processed s "0001045810-24-001" td.1 td.2) ⟨[], []⟩)
        "0001045810-24-001").length = 1 := by
  refine ⟨by decide, by decide, ?_⟩
  exact (mark_processed_idempotent ⟨[], []⟩ "0001045810-24-001"
    [("NVDA", "2024-11-20"), ("NVDA", "2024-11-20")] (by decide) (by decide)).1

end StateManager

namespace PollingEngine

/-- C2 (amended): with a well-formed unprocessed filing carrying a payload,
the task still marks the accession processed when the text fetch raises
(that exception is caught locally and the text treated as `None`); but when
the extractor or the notifier raises, the exception escapes to the task's
outer handler and `mark_processed` is not reached — the store is unchanged. -/
theorem process_filing_marking_behavior
    (deps : ProcessDeps) (filing : Filing) (db : StateDB)
    (a t : String) (p : Unit)
    (hacc : filing.accession_number = some a) (ha : a ≠ "")
    (htick : filing.ticker = some t) (ht : t ≠ "")
    (hnew : StateManager.is_processed db a = false)
    (hobj : filing.filing_obj = some p) :
    (∀ err, deps.get_filing_text p = .error err →
      _process_filing deps filing db
        = StateManager.mark_processed db a t (filing.filing_date.getD "")) ∧
    (∀ text err, deps.get_filing_text p = .ok (some text) → text ≠ "" →
      deps.extract_from_text text t = .error err →
      _process_filing deps filing db = db) ∧
    (∀ text report err, deps.get_filing_text p = .ok (some text) → text ≠ "" →
      deps.extract_from_text text t = .ok report →
      deps.save_report report t a = .error err →
      _process_filing deps filing db = db) := by
  refine ⟨?_, ?_, ?_⟩
  · intro err hfetch
    simp [_process_filing, _process_filing_body, truthyStr,
      hacc, htick, ha, ht, hnew, hobj, hfetch]
  · intro text err hfetch htext hext
    simp [_process_filing, _process_filing_body, truthyStr, Bind.bind,
      Except.bind, hacc, htick, ha, ht, hnew, hobj, hfetch, htext, hext]
  · intro text report err hfetch htext hext hsave
    simp [_process_filing, _process_filing_body, truthyStr, Bind.bind,
      Except.bind, hacc, htick, ha, ht, hnew, hobj, hfetch, htext, hext, hsave]

/-- C2 witness: on an empty store, a raising text fetch still ends with the
accession marked processed. -/
theorem process_filing_marking_behavior_witness :
    (PollingEngine.sample_filing.accession_number = some "0001045810-24-001" ∧
     PollingEngine.sample_filing.ticker = some "NVDA" ∧
     StateManager.is_processed ⟨[], []⟩ "0001045810-24-001" = false ∧
     fetch_raises_deps.get_filing_text () = .error (.exc "ConnectionError")) ∧
    _process_filing fetch_raises_deps sample_filing ⟨[], []⟩
      = StateManager.mark_processed ⟨[], []⟩ "0001045810-24-001" "NVDA"
          "2024-11-20" := by
  refine ⟨⟨rfl, rfl, rfl, rfl⟩, ?_⟩
  have h := (process_filing_marking_behavior fetch_raises_deps sample_filing
      ⟨[], []⟩ "0001045810-24-001" "NVDA" ()
      rfl (by decide) rfl (by decide) rfl rfl).1 (.exc "ConnectionError") rfl
  simpa using h

/-- C2 counterexample to the claim as stated: a well-formed, unprocessed
filing whose extractor raises is NOT marked processed — the exception
propagates past the `mark_processed` call to the outer handler. -/
theorem process_filing_extractor_failure_not_marked :
    truthyStr sample_filing.accession_number = true ∧
    truthyStr sample_filing.ticker = true ∧
    extractor_raises_deps.extract_from_text "8-K text" "NVDA"
      = .error (.exc "LLMError") ∧
    StateManager.is_processed
      (_process_filing extractor_raises_deps sample_filing ⟨[], []⟩)
      "0001045810-24-001" = false := by
  exact ⟨rfl, rfl, rfl, rfl⟩

/-- C3: evaluating the scheduler-event listener. On a missed run the
`self.state` attribute lookup raises `AttributeError` (the engine has no
such attribute), so no `misfire` row is recorded; on a job error the
listener only logs and appends no `scheduler_events` row at all. -/
theorem log_scheduler_event_evaluation :
    _log_scheduler_event
        ⟨some "polling_job", some "2025-01-01T00:05:00", none, none⟩ ⟨[], []⟩
      = .error (.exc "AttributeError: no attribute state") ∧
    _log_scheduler_event
        ⟨some "polling_job", some "2025-01-01T00:05:00", some "boom",
          some "Traceback"⟩ ⟨[], []⟩
      = .ok ⟨[], []⟩ := by
  exact ⟨rfl, rfl⟩

end PollingEngine

namespace SignalStore

theorem mem_of_getLast?_eq {α : Type} {l : List α} {a : α}
    (h : l.getLast? = some a) : a ∈ l := by
  rcases List.mem_getLast?_eq_getLast (l := l) (x := a)
      (by simpa [Option.mem_def] using h) with ⟨hne, rfl⟩
  exact List.getLast_mem hne

theorem latest_by_timestamp_eq_getLast (l : List ScrapedSignal)
    (h : (l.map ScrapedSignal.timestamp).Pairwise (fun x y => x < y)) :
    latest_by_timestamp l = l.getLast? := by
  induction l with
  | nil => rfl
  | cons s rest ih =>
    simp only [List.map_cons, List.pairwise_cons] at h
    rcases rest with _ | ⟨r, rest'⟩
    · rfl
    · have hrec : latest_by_timestamp (r :: rest') = (r :: rest').getLast? :=
        ih h.2
      have hne : (r :: rest').getLast? = some ((r :: rest').getLast (by simp)) := by
        simp [List.getLast?_eq_getLast]
      unfold latest_by_timestamp
      rw [hrec, hne]
      have hmem : (r :: rest').getLast (by simp) ∈ (r :: rest') :=
        List.getLast_mem _
      have hlt : s.timestamp < ((r :: rest').getLast (by simp)).timestamp :=
        h.1 _ (List.mem_map.mpr ⟨_, hmem, rfl⟩)
      rw [List.getLast?_cons_cons, hne]
      simp [hlt]

/-- C4: `get_latest_signal(ticker, provider)` returns the payload of the
most recently saved signal for that `(ticker, provider)` exactly when
`now − timestamp < ttl`, and `None` when there is no matching entity, no
matching signal, or the newest matching signal has expired. Timestamps of
the matching rows are assumed strictly increasing in save order, which the
`utcnow()` stamping of `save_signal` provides. -/
theorem get_latest_signal_ttl (ttl_hours : Int) (db : SignalDB)
    (ticker provider : String) (now : Int)
    (hmono : ((matching_signals db ticker provider).map
        ScrapedSignal.timestamp).Pairwise (fun x y => x < y)) :
    get_latest_signal ttl_hours db ticker provider now =
      match (matching_signals db ticker provider).getLast? with
      | none => none
      | some s =>
        if now - s.timestamp < ttl_hours * 3600 then some s.raw_payload
        else none := by
  unfold get_latest_signal
  unfold matching_signals at hmono ⊢
  cases hfind : find_entity db ticker with
  | none => simp [hfind]
  | some entity =>
    rw [hfind] at hmono
    simp only
    rw [latest_by_timestamp_eq_getLast _ hmono]

/-- C4 witness: after two saves for `(AAPL, hiring)` at times 100 and 200,
a read at time 1900 with a 1-hour TTL returns the second payload. -/
theorem get_latest_signal_ttl_witness :
    ((matching_signals
        (save_signal (save_signal ⟨[], []⟩ "AAPL" "hiring" "payload1" 0 none 100)
          "AAPL" "hiring" "payload2" 0 none 200) "AAPL" "hiring").map
        ScrapedSignal.timestamp).Pairwise (fun x y => x < y) ∧
    get_latest_signal 1
        (save_signal (save_signal ⟨[], []⟩ "AAPL" "hiring" "payload1" 0 none 100)
          "AAPL" "hiring" "payload2" 0 none 200) "AAPL" "hiring" 1900
      = some "payload2" := by
  refine ⟨by decide, ?_⟩
  have h := get_latest_signal_ttl 1
    (save_signal (save_signal ⟨[], []⟩ "AAPL" "hiring" "payload1" 0 none 100)
      "AAPL" "hiring" "payload2" 0 none 200) "AAPL" "hiring" 1900 (by decide)
  rw [h]
  decide

end SignalStore

namespace TimeSeriesPersistence

theorem save_snapshot_fresh (table : List SnapshotRow) (e : MacroEvent)
    (h : key_rows table e.event_id e.timestamp = []) :
    save_snapshot table e = (true, table ++ [row_of e]) := by
  have hany : table.any
      (fun r => r.event_id == e.event_id && r.timestamp == e.timestamp)
        = false := by
    rw [Bool.eq_false_iff]
    intro hc
    rcases List.any_eq_true.mp hc with ⟨r, hr, hrk⟩
    have : r ∈ key_rows table e.event_id e.timestamp :=
      List.mem_filter.mpr ⟨hr, hrk⟩
    rw [h] at this
    exact absurd this (List.not_mem_nil r)
  simp [save_snapshot, hany]

theorem save_sequence_dups (es : List MacroEvent) (table : List SnapshotRow)
    (k1 : String) (k2 : Int)
    (hky : table.any (fun r => r.event_id == k1 && r.timestamp == k2) = true)
    (hsame : ∀ e2 ∈ es, e2.event_id = k1 ∧ e2.timestamp = k2) :
    save_sequence es table = (List.replicate es.length false, table) := by
  induction es with
  | nil => rfl
  | cons e2 rest ih =>
    have hk := hsame e2 (List.mem_cons_self e2 rest)
    have hdup : save_snapshot table e2 = (false, table) := by
      simp [save_snapshot, hk.1, hk.2, hky]
    simp only [save_sequence, hdup]
    rw [ih (fun x hx => hsame x (List.mem_cons_of_mem e2 hx))]
    simp [List.replicate_succ]

theorem save_batch_aux (evs : List MacroEvent) (n : Nat)
    (t : List SnapshotRow) :
    (evs.foldl (fun acc e =>
        let r := save_snapshot acc.2 e
        (if r.1 then acc.1 + 1 else acc.1, r.2)) (n, t)).1 + t.length
      = n + (evs.foldl (fun acc e =>
          let r := save_snapshot acc.2 e
          (if r.1 then acc.1 + 1 else acc.1, r.2)) (n, t)).2.length := by
  induction evs generalizing n t with
  | nil => simp
  | cons e rest ih =>
    simp only [List.foldl_cons]
    by_cases hc : t.any
        (fun r => r.event_id == e.event_id && r.timestamp == e.timestamp)
    · have hdup : save_snapshot t e = (false, t) := by
        simp [save_snapshot, hc]
      simpa [hdup] using ih n t
    · have hcf : t.any
          (fun r => r.event_id == e.event_id && r.timestamp == e.timestamp)
            = false := Bool.eq_false_iff.mpr hc
      have hfr : save_snapshot t e = (true, t ++ [row_of e]) := by
        simp [save_snapshot, hcf]
      have h2 := ih (n + 1) (t ++ [row_of e])
      simp only [List.length_append, List.length_cons,
        List.length_nil] at h2
      simp [hfr]
      omega

/-- C5: with the `(event_id, timestamp)` key initially absent, a sequence
of colliding `save_snapshot` calls returns `true` first and `false` for
every later call, and exactly one row with that key is persisted; and for
every table and batch, `save_batch` returns exactly the number of rows it
actually wrote. -/
theorem save_snapshot_key_unique (table : List SnapshotRow)
    (e : MacroEvent) (es : List MacroEvent)
    (h0 : key_rows table e.event_id e.timestamp = [])
    (hsame : ∀ e2 ∈ es,
      e2.event_id = e.event_id ∧ e2.timestamp = e.timestamp) :
    (save_sequence (e :: es) table).1
        = true :: List.replicate es.length false ∧
    (key_rows (save_sequence (e :: es) table).2
        e.event_id e.timestamp).length = 1 ∧
    (∀ (t : List SnapshotRow) (evs : List MacroEvent),
      (save_batch t evs).1 + t.length = (save_batch t evs).2.length) := by
  have hfirst := save_snapshot_fresh table e h0
  have hky : (table ++ [row_of e]).any
      (fun r => r.event_id == e.event_id && r.timestamp == e.timestamp)
        = true := by
    simp [List.any_append, row_of]
  have hrest := save_sequence_dups es (table ++ [row_of e])
    e.event_id e.timestamp hky hsame
  constructor
  · simp only [save_sequence, hfirst, hrest]
  · constructor
    · simp only [save_sequence, hfirst, hrest]
      unfold key_rows at h0 ⊢
      simp [List.filter_append, h0, row_of]
    · intro t evs
      have := save_batch_aux evs 0 t
      unfold save_batch
      omega

/-- A first snapshot of an event at time 100. -/
def snapshot_event_a : MacroEvent :=
  ⟨"evt1", "Will the Fed cut rates?", some "Economics", none, none,
    42/100, none, some 1500000, "polymarket", 100⟩

/-- A colliding snapshot: same `(event_id, timestamp)`, other fields new. -/
def snapshot_event_b : MacroEvent :=
  ⟨"evt1", "Will the Fed cut rates? (edited)", some "Economics", none, none,
    55/100, none, some 2000000, "polymarket", 100⟩

/-- C5 witness: on an empty table, saving the event and then a colliding
event returns `[true, false]` and leaves one row for the key. -/
theorem save_snapshot_key_unique_witness :
    key_rows [] snapshot_event_a.event_id snapshot_event_a.timestamp = [] ∧
    (save_sequence [snapshot_event_a, snapshot_event_b] []).1
        = [true, false] ∧
    (key_rows (save_sequence [snapshot_event_a, snapshot_event_b] []).2
        snapshot_event_a.event_id snapshot_event_a.timestamp).length = 1 := by
  have h := save_snapshot_key_unique [] snapshot_event_a [snapshot_event_b]
    (by decide) (by decide)
  exact ⟨by decide, by simpa using h.1, by simpa using h.2.1⟩

end TimeSeriesPersistence

namespace PolymarketScraper

theorem parse_all_prices_head (p0 : String) (ps : List String) (v0 : Rat)
    (vs : List Rat) (h : parse_all_prices (p0 :: ps) = some (v0 :: vs)) :
    parseFloat p0 = some v0 ∧ parse_all_prices ps = some vs := by
  unfold parse_all_prices at h
  cases hv : parseFloat p0 with
  | none => rw [hv] at h; exact absurd h (by simp)
  | some v =>
    cases hvs : parse_all_prices ps with
    | none => rw [hv, hvs] at h; exact absurd h (by simp)
    | some vs2 =>
      rw [hv, hvs] at h
      simp only [Option.some_inj, List.cons.injEq] at h
      obtain ⟨h1, h2⟩ := h
      subst h1
      subst h2
      exact ⟨rfl, rfl⟩

theorem outcomes_loop_all_ok (labels : List String) (prices : List String)
    (vals : List Rat) (acc : List OutcomeEntry)
    (h : parse_all_prices prices = some vals) :
    outcomes_loop (labels.zip prices) acc
      = (acc ++ (labels.zip vals).map
          (fun lv => OutcomeEntry.mk lv.1 lv.2), true) := by
  induction labels generalizing prices vals acc with
  | nil => simp [outcomes_loop]
  | cons l ls ih =>
    cases prices with
    | nil =>
      unfold parse_all_prices at h
      simp only [Option.some_inj] at h
      subst h
      simp [outcomes_loop]
    | cons p ps =>
      cases vals with
      | nil =>
        exfalso
        unfold parse_all_prices at h
        cases hv : parseFloat p <;> rw [hv] at h
        · simp at h
        · cases hvs : parse_all_prices ps <;> rw [hvs] at h <;> simp at h
      | cons v0 vs =>
        have hh := parse_all_prices_head p ps v0 vs h
        have hz : (l :: ls).zip (p :: ps) = (l, p) :: ls.zip ps := rfl
        have hz2 : (l :: ls).zip (v0 :: vs) = (l, v0) :: ls.zip vs := rfl
        rw [hz, hz2]
        simp only [outcomes_loop, hh.1]
        rw [ih ps vs (acc ++ [OutcomeEntry.mk l v0]) hh.2]
        simp [List.map_cons, List.append_assoc]

end PolymarketScraper

namespace PolymarketScraper

theorem parse_outcomes_prob_eval (oStr pStr : Option String)
    (labels prices : List String) (v0 : Rat) (vals : List Rat)
    (h1 : parseStrList (oStr.getD "[]") = some labels)
    (h2 : parseStrList (pStr.getD "[]") = some prices)
    (hlne : labels ≠ [])
    (hall : parse_all_prices prices = some (v0 :: vals)) :
    parse_outcomes_prob oStr pStr
      = ((labels.zip (v0 :: vals)).map
          (fun lv => OutcomeEntry.mk lv.1 lv.2), v0) := by
  have hpne : prices ≠ [] := by
    intro hp
    rw [hp] at hall
    simp [parse_all_prices] at hall
  rcases prices with _ | ⟨p0, ps⟩
  · exact absurd rfl hpne
  have hhead := parse_all_prices_head p0 ps v0 vals hall
  have hloop := outcomes_loop_all_ok labels (p0 :: ps) (v0 :: vals) [] hall
  have hlE : labels.isEmpty = false := by
    cases labels
    · exact absurd rfl hlne
    · rfl
  unfold parse_outcomes_prob
  rw [h1, h2]
  simp only [hlE, List.isEmpty_cons, Bool.or_false, Bool.or_self, if_false,
    Bool.false_eq_true, hloop, List.nil_append, hhead.1]
  simp

/-- C8 (amended): when both serialized fields parse as non-empty lists of
strings, every zipped price parses as a float, and the first price lies
within the `[0,1]` range pydantic enforces on `probability_yes`, the
hydrated event carries one `(label, probability)` entry per zipped pair
and `probability_yes` equal to the first price; when either field fails to
parse, `probability_yes` is 0.5; and the spec's concrete multi-outcome
scenario (outcomes Yes/No, prices 0.42/0.58) hydrates to probabilities
0.42 / 0.58 with `probability_yes = 0.42`. -/
theorem parse_single_market_spec :
    (∀ (m : RawMarket) (now : Int) (labels prices : List String)
        (v0 : Rat) (vals : List Rat),
      parseStrList (m.outcomes.getD "[]") = some labels →
      parseStrList (m.outcomePrices.getD "[]") = some prices →
      labels ≠ [] →
      parse_all_prices prices = some (v0 :: vals) →
      0 ≤ v0 → v0 ≤ 1 →
      (_parse_single_market m now).outcomes
          = some ((labels.zip (v0 :: vals)).map
              (fun lv => OutcomeEntry.mk lv.1 lv.2)) ∧
      (_parse_single_market m now).probability_yes = v0) ∧
    (∀ (m : RawMarket) (now : Int),
      parseStrList (m.outcomes.getD "[]") = none ∨
        parseStrList (m.outcomePrices.getD "[]") = none →
      (_parse_single_market m now).probability_yes = 1/2) ∧
    ((_parse_single_market yes_no_market 0).outcomes
        = some [⟨"Yes", 21/50⟩, ⟨"No", 29/50⟩] ∧
     (_parse_single_market yes_no_market 0).probability_yes = 21/50) := by
  have hpart1 : ∀ (m : RawMarket) (now : Int) (labels prices : List String)
      (v0 : Rat) (vals : List Rat),
      parseStrList (m.outcomes.getD "[]") = some labels →
      parseStrList (m.outcomePrices.getD "[]") = some prices →
      labels ≠ [] →
      parse_all_prices prices = some (v0 :: vals) →
      0 ≤ v0 → v0 ≤ 1 →
      (_parse_single_market m now).outcomes
          = some ((labels.zip (v0 :: vals)).map
              (fun lv => OutcomeEntry.mk lv.1 lv.2)) ∧
      (_parse_single_market m now).probability_yes = v0 := by
    intro m now labels prices v0 vals h1 h2 hlne hall h0 h1v
    have hp := parse_outcomes_prob_eval m.outcomes m.outcomePrices
      labels prices v0 vals h1 h2 hlne hall
    simp only [_parse_single_market, hp, macro_event_validate]
    rw [if_pos ⟨h0, h1v⟩]
    exact ⟨rfl, rfl⟩
  refine ⟨hpart1, ?_, ?_⟩
  · intro m now h
    have hparsed : parse_outcomes_prob m.outcomes m.outcomePrices
        = ([], 1/2) := by
      unfold parse_outcomes_prob
      rcases h with h | h
      · rw [h]
      · rw [h]
        cases parseStrList (m.outcomes.getD "[]") <;> rfl
    simp only [_parse_single_market, hparsed, macro_event_validate]
    rw [if_pos ⟨by norm_num, by norm_num⟩]
  · have d1 : parseDecimal "0.42" = some (42, 2) := by decide
    have d2 : parseDecimal "0.58" = some (58, 2) := by decide
    have hall : parse_all_prices ["0.42", "0.58"] = some [21/50, 29/50] := by
      simp [parse_all_prices, parseFloat, d1, d2]
      norm_num
    have h := hpart1 yes_no_market 0 ["Yes", "No"] ["0.42", "0.58"]
      (21/50) [29/50] (by decide) (by decide) (by decide) hall
      (by norm_num) (by norm_num)
    exact ⟨by simpa using h.1, h.2⟩

/-- C8 witness: the spec's concrete multi-outcome market run through the
amended statement. -/
theorem parse_single_market_spec_witness :
    parseStrList "[\"Yes\", \"No\"]" = some ["Yes", "No"] ∧
    parse_all_prices ["0.42", "0.58"] = some [21/50, 29/50] ∧
    (_parse_single_market yes_no_market 0).probability_yes = 21/50 := by
  have d1 : parseDecimal "0.42" = some (42, 2) := by decide
  have d2 : parseDecimal "0.58" = some (58, 2) := by decide
  have hall : parse_all_prices ["0.42", "0.58"] = some [21/50, 29/50] := by
    simp [parse_all_prices, parseFloat, d1, d2]
    norm_num
  refine ⟨by decide, hall, ?_⟩
  exact (parse_single_market_spec.1 yes_no_market 0 ["Yes", "No"]
    ["0.42", "0.58"] (21/50) [29/50] (by decide) (by decide) (by decide)
    hall (by norm_num) (by norm_num)).2

/-- C8 counterexample to the claim as stated: a market whose fields parse
as non-empty lists of strings but whose first price is `1.5` — pydantic
rejects `probability_yes = 1.5`, the outer handler returns the shell
event, and the hydrated event has `probability_yes = 0` and no outcomes
list, not the first price. -/
theorem parse_single_market_out_of_range_counterexample :
    parseStrList "[\"A\", \"B\"]" = some ["A", "B"] ∧
    parseStrList "[\"1.5\", \"0.2\"]" = some ["1.5", "0.2"] ∧
    parseFloat "1.5" = some (3/2) ∧
    (_parse_single_market out_of_range_market 0).probability_yes = 0 ∧
    ¬ ((_parse_single_market out_of_range_market 0).probability_yes
        = 3/2) ∧
    (_parse_single_market out_of_range_market 0).outcomes = none := by
  have d15 : parseDecimal "1.5" = some (15, 1) := by decide
  have d02 : parseDecimal "0.2" = some (2, 1) := by decide
  have hp15 : parseFloat "1.5" = some (3/2) := by
    simp [parseFloat, d15]
    norm_num
  have hp02 : parseFloat "0.2" = some (1/5) := by
    simp [parseFloat, d02]
    norm_num
  have hall : parse_all_prices ["1.5", "0.2"] = some [3/2, 1/5] := by
    simp [parse_all_prices, hp15, hp02]
  have hp := parse_outcomes_prob_eval (some "[\"A\", \"B\"]")
    (some "[\"1.5\", \"0.2\"]") ["A", "B"] ["1.5", "0.2"] (3/2) [1/5]
    (by decide) (by decide) (by decide) hall
  have hmain : _parse_single_market out_of_range_market 0
      = ⟨"", "Error Parsing", none, none, none, 0, none, some 0,
          "error", 0⟩ := by
    simp only [_parse_single_market]
    rw [show out_of_range_market.outcomes = some "[\"A\", \"B\"]" from rfl,
      show out_of_range_market.outcomePrices
        = some "[\"1.5\", \"0.2\"]" from rfl, hp]
    simp only [macro_event_validate]
    rw [if_neg (fun hcon => absurd hcon.2 (by norm_num))]
  refine ⟨by decide, by decide, hp15, ?_, ?_, ?_⟩
  · rw [hmain]
  · rw [hmain]
    norm_num
  · rw [hmain]

end PolymarketScraper

namespace HybridResolver

theorem inner_fold_entity_map (als : List String) (name : String)
    (c1 : ResolverCorpus) :
    (als.foldl (fun c2 al =>
        { c2 with alias_map := dict_insert c2.alias_map (pyLower al) name })
      c1).entity_map = c1.entity_map := by
  induction als generalizing c1 with
  | nil => rfl
  | cons al rest ih => exact ih _

theorem inner_fold_alias_lookup (als : List String) (name : String)
    (c1 : ResolverCorpus) (k v : String)
    (h : (als.foldl (fun c2 al =>
        { c2 with alias_map := dict_insert c2.alias_map (pyLower al) name })
      c1).alias_map.lookup k = some v) :
    v = name ∨ c1.alias_map.lookup k = some v := by
  induction als generalizing c1 with
  | nil => exact Or.inr h
  | cons al rest ih =>
    rcases ih _ h with hn | hcons
    · exact Or.inl hn
    · unfold dict_insert at hcons
      rw [List.lookup_cons] at hcons
      cases hbeq : (k == pyLower al) with
      | true => rw [hbeq] at hcons; exact Or.inl (Option.some.inj hcons).symm
      | false => rw [hbeq] at hcons; exact Or.inr hcons

theorem load_step_sound (c : ResolverCorpus) (e : ResolverEntity)
    (h : alias_sound c) : alias_sound (load_step c e) := by
  intro k v hv
  unfold load_step at hv ⊢
  rw [inner_fold_entity_map]
  rcases inner_fold_alias_lookup e.aliases e.name _ k v hv with rfl | hold
  · refine ⟨e.ticker, ?_⟩
    unfold dict_insert
    rw [List.lookup_cons]
    simp
  · rcases h k v hold with ⟨tk, htk⟩
    unfold dict_insert
    rw [List.lookup_cons]
    cases hbeq : (v == e.name) with
    | true => exact ⟨e.ticker, rfl⟩
    | false => exact ⟨tk, htk⟩

theorem foldl_load_step_sound (entities : List ResolverEntity)
    (c : ResolverCorpus) (h : alias_sound c) :
    alias_sound (entities.foldl load_step c) := by
  induction entities generalizing c with
  | nil => exact h
  | cons e rest ih => exact ih _ (load_step_sound c e h)

theorem load_entities_sound (backend : VectorBackend)
    (entities : List ResolverEntity) :
    alias_sound (load_entities backend entities) := by
  unfold load_entities
  intro k v hv
  have hbase : alias_sound (⟨[], [], [], []⟩ : ResolverCorpus) := by
    intro k2 v2 h2
    simp [List.lookup] at h2
  exact foldl_load_step_sound entities _ hbase k v hv

/-- C6 (amended): when the lowercased AND whitespace-stripped query is in
the alias map of a corpus built by `load_entities`, `resolve` returns the
aliased canonical and its ticker with confidence exactly 1.0 and method
`alias_lookup`, for every vector backend — the vector path is never
consulted on an alias hit. -/
theorem resolve_alias_precedence (backend : VectorBackend)
    (entities : List ResolverEntity) (query canonical : String)
    (halias : (load_entities backend entities).alias_map.lookup
        (pyStrip (pyLower query)) = some canonical) :
    ∃ tk, (load_entities backend entities).entity_map.lookup canonical
        = some tk ∧
      ∀ backend2 : VectorBackend,
        resolve backend2 (load_entities backend entities) query
          = .ok (some ⟨tk, canonical, 1, "alias_lookup"⟩) := by
  obtain ⟨tk, htk⟩ := load_entities_sound backend entities _ _ halias
  refine ⟨tk, htk, fun backend2 => ?_⟩
  simp only [resolve, halias, htk]

/-- C6 witness: the spec's golden-set alias (Hon Hai → Foxconn) resolves
with confidence 1.0 and method `alias_lookup`. -/
theorem resolve_alias_precedence_witness :
    (load_entities const_backend foxconn_entities).alias_map.lookup
        (pyStrip (pyLower "Hon Hai Precision Ind. Co.")) = some "Foxconn" ∧
    resolve const_backend (load_entities const_backend foxconn_entities)
        "Hon Hai Precision Ind. Co."
      = .ok (some ⟨"2317.TW", "Foxconn", 1, "alias_lookup"⟩) := by
  refine ⟨by decide, ?_⟩
  obtain ⟨tk, htk, hres⟩ := resolve_alias_precedence const_backend
    foxconn_entities "Hon Hai Precision Ind. Co." "Foxconn" (by decide)
  have h2 : (load_entities const_backend foxconn_entities).entity_map.lookup
      "Foxconn" = some "2317.TW" := by decide
  rw [h2] at htk
  obtain rfl := (Option.some.inj htk).symm
  exact hres const_backend

/-- C6 counterexample to the claim as stated: with the alias `" Apple"`
(lowercased to `" apple"`), the query `" Apple"` has its lowercased form
in the alias map, yet `resolve` normalizes with `.lower().strip()`, misses
the alias, falls to the vector path and returns `None`. -/
theorem resolve_alias_whitespace_counterexample :
    (load_entities const_backend apple_entities).alias_map.lookup
        (pyLower " Apple") = some "Apple Inc." ∧
    resolve const_backend (load_entities const_backend apple_entities)
        " Apple" = .ok none := by
  exact ⟨by decide, by decide⟩

end HybridResolver

namespace MarketIndex

theorem mem_insertByVol (r : MarketRow) (l : List MarketRow) (x : MarketRow) :
    x ∈ insertByVol r l ↔ x = r ∨ x ∈ l := by
  induction l with
  | nil => simp [insertByVol]
  | cons s rest ih =>
    by_cases hc : r.volume_usd < s.volume_usd
    · simp only [insertByVol, hc, if_true, List.mem_cons, ih]
      tauto
    · simp only [insertByVol, hc, if_false, List.mem_cons]

theorem pairwise_insertByVol (r : MarketRow) (l : List MarketRow)
    (h : l.Pairwise (fun a b => b.volume_usd ≤ a.volume_usd)) :
    (insertByVol r l).Pairwise (fun a b => b.volume_usd ≤ a.volume_usd) := by
  induction l with
  | nil => simp [insertByVol]
  | cons s rest ih =>
    rcases List.pairwise_cons.mp h with ⟨h1, h2⟩
    by_cases hc : r.volume_usd < s.volume_usd
    · simp only [insertByVol, hc, if_true]
      refine List.pairwise_cons.mpr ⟨?_, ih h2⟩
      intro x hx
      rcases (mem_insertByVol r rest x).mp hx with rfl | hxm
      · exact le_of_lt hc
      · exact h1 x hxm
    · simp only [insertByVol, hc, if_false]
      have hsr : s.volume_usd ≤ r.volume_usd := le_of_not_lt hc
      refine List.pairwise_cons.mpr ⟨?_, List.pairwise_cons.mpr ⟨h1, h2⟩⟩
      intro x hx
      rcases List.mem_cons.mp hx with rfl | hxm
      · exact hsr
      · exact le_trans (h1 x hxm) hsr

theorem pairwise_order_by_volume_desc (l : List MarketRow) :
    (order_by_volume_desc l).Pairwise
      (fun a b => b.volume_usd ≤ a.volume_usd) := by
  induction l with
  | nil => simp [order_by_volume_desc]
  | cons r rest ih => exact pairwise_insertByVol r _ ih

/-- C7 (amended): in both the full-text path and the substring fallback
path, `search` returns at most `limit` rows in non-increasing
`volume_usd` order; the source query names no further sort key, so rows
of equal volume keep the unspecified SQL tie order (table order here),
with no `event_id` tiebreak. -/
theorem search_ordering_spec :
    (∀ (matchq : MarketRow → Bool) (table : List MarketRow) (limit : Nat),
      (search_fts matchq table limit).length ≤ limit ∧
      (search_fts matchq table limit).Pairwise
        (fun a b => b.volume_usd ≤ a.volume_usd)) ∧
    (∀ (table : List MarketRow) (query : String) (limit : Nat),
      (_search_fallback table query limit).length ≤ limit ∧
      (_search_fallback table query limit).Pairwise
        (fun a b => b.volume_usd ≤ a.volume_usd)) := by
  constructor
  · intro matchq table limit
    constructor
    · simp only [search_fts, List.length_take]
      exact min_le_left _ _
    · exact List.Pairwise.sublist (List.take_sublist _ _)
        (pairwise_order_by_volume_desc _)
  · intro table query limit
    constructor
    · simp only [_search_fallback, List.length_take]
      exact min_le_left _ _
    · exact List.Pairwise.sublist (List.take_sublist _ _)
        (pairwise_order_by_volume_desc _)

/-- C7 counterexample to the claim as stated: two matches with identical
`volume_usd` come back in table (insertion) order `["b", "a"]`, not in
ascending `event_id` order — the query has no deterministic `event_id`
tiebreak. -/
theorem search_tiebreak_counterexample :
    row_b.volume_usd = row_a.volume_usd ∧
    (_search_fallback [row_b, row_a] "tech" 10).map MarketRow.event_id
      = ["b", "a"] ∧
    ¬ ((_search_fallback [row_b, row_a] "tech" 10).map
        MarketRow.event_id).Sorted (fun x y => x ≤ y) := by
  refine ⟨by decide, by decide, ?_⟩
  intro hsorted
  rw [show (_search_fallback [row_b, row_a] "tech" 10).map MarketRow.event_id
      = ["b", "a"] from by decide] at hsorted
  have hba : ("b" : String) ≤ "a" :=
    (List.pairwise_cons.mp hsorted).1 "a" (by simp)
  have hab : ("a" : String) < "b" := by
    rw [String.lt_iff_toList_lt]
    decide
  exact absurd hba (not_le.mpr hab)

end MarketIndex

namespace RunPoller

/-- C9: evaluating the CLI. A plain valid invocation dies on the
`args.log_format` read with an unhandled `AttributeError` (process exit
code 1, not a configuration exit 2); passing `--misfire-grace-seconds 30`
hits the argparse unrecognized-argument usage error (exit 2) because the
parser never declares that flag; and no command line ever reaches
`start_scheduled`. -/
theorem run_poller_cli_evaluation :
    main ["NVDA"] = .attribute_error "log_format" ∧
    main ["--misfire-grace-seconds", "30", "NVDA"] = .usage_error ∧
    (∀ argv : List String,
      main argv = .usage_error ∨
        main argv = .attribute_error "log_format") := by
  refine ⟨by decide, by decide, ?_⟩
  intro argv
  cases h : parse_args argv with
  | none => exact Or.inl (by simp only [main, h])
  | some args => exact Or.inr (by simp only [main, h]; rfl)

end RunPoller

namespace DiscoveryEngine

/-- C10: `get_keywords_for_ticker` returns exactly the one-element list
with the uppercased input for every ticker missing from the theme table;
keywords and sector depend only on the uppercased ticker (the lookup is
case-insensitive, e.g. `nvda` equals `NVDA`); and `search_ticker` on an
unmapped ticker queries the index for exactly that single uppercased
keyword. -/
theorem keywords_fallback_spec :
    (∀ t : String, TICKER_THEME_MAP.lookup (pyUpper t) = none →
      get_keywords_for_ticker t = [pyUpper t]) ∧
    (∀ s t : String, pyUpper s = pyUpper t →
      get_keywords_for_ticker s = get_keywords_for_ticker t ∧
      get_sector_for_ticker s = get_sector_for_ticker t) ∧
    (get_keywords_for_ticker "nvda" = get_keywords_for_ticker "NVDA" ∧
     get_sector_for_ticker "nvda" = get_sector_for_ticker "NVDA") ∧
    (∀ (search : String → Nat → List MarketRow) (t : String) (limit : Nat),
      TICKER_THEME_MAP.lookup (pyUpper t) = none →
      search_ticker search t limit
        = (MarketIndex.order_by_volume_desc
            (dedup_append [] (search (pyUpper t) limit))).take limit) := by
  refine ⟨?_, ?_, by decide, ?_⟩
  · intro t h
    simp only [get_keywords_for_ticker, h]
  · intro s t hst
    constructor
    · simp only [get_keywords_for_ticker, hst]
    · simp only [get_sector_for_ticker, hst]
  · intro search t limit h
    simp only [search_ticker, get_keywords_for_ticker, h, List.foldl_cons,
      List.foldl_nil]

/-- C10 witness: an unmapped ticker `zzz` falls back to the single
uppercased keyword `ZZZ`. -/
theorem keywords_fallback_spec_witness :
    TICKER_THEME_MAP.lookup (pyUpper "zzz") = none ∧
    get_keywords_for_ticker "zzz" = ["ZZZ"] := by
  refine ⟨by decide, ?_⟩
  have h := keywords_fallback_spec.1 "zzz" (by decide)
  rw [show pyUpper "zzz" = "ZZZ" from by decide] at h
  exact h

end DiscoveryEngine
